import Mathlib

/-!
Verification of the PTO3 observation data model (`model.go`) and condition
cache (`ConditionCache`) against its natural-language specification.

The Go code is shallowly embedded:
* JSON byte strings are modelled at the level of parsed JSON values
  (`json.Unmarshal`'s text layer is abstracted away; a byte string that is
  not JSON at all fails before the code under study runs).
* Go `int` is modelled as `Int` (no claim under study depends on overflow).
* `time.Time` is modelled as an integer count of UTC seconds; the RFC3339
  rendering used by `MarshalJSON` is modelled as the canonical decimal
  rendering of that integer, with `time.Parse` as its partial inverse.
  No claim under study depends on the calendar text itself, only on the
  format/parse pair being injective and partial.
* The database handle `orm.DB` is modelled as explicit state (`DB`) holding
  the five tables, an operation log, and a failure schedule `failAt` that
  makes "this store operation fails" explicit.
-/

/-- A parsed JSON value (the result of Go's `json.Unmarshal` into
`interface{}`). Numbers in the inputs under study are integers. -/
inductive JSON where
  | null : JSON
  | bool : Bool → JSON
  | num : Int → JSON
  | str : String → JSON
  | arr : List JSON → JSON
  | obj : List (String × JSON) → JSON

/-- Digits of `n` least-significant first; `[]` for `0`. -/
def digitsRev (n : Nat) : List Nat :=
  if n = 0 then [] else (n % 10) :: digitsRev (n / 10)
decreasing_by exact Nat.div_lt_self (Nat.pos_of_ne_zero (by assumption)) (by decide)

/-- Decimal digits of `n`, most-significant first, `[0]` for `0`. -/
def natDigits (n : Nat) : List Nat :=
  if n = 0 then [0] else (digitsRev n).reverse

def digitChar (d : Nat) : Char := Char.ofNat (48 + d)

def charDigit (c : Char) : Nat := c.toNat - 48

def isDigitChar (c : Char) : Bool := 48 ≤ c.toNat ∧ c.toNat ≤ 57

/-- The canonical decimal rendering of an integer (as produced by Go's
`strconv`/`fmt` for integral values). -/
def intStr (i : Int) : String :=
  if i < 0 then String.mk ('-' :: (natDigits i.natAbs).map digitChar)
  else String.mk ((natDigits i.natAbs).map digitChar)

def parseNatDigits (l : List Nat) : Nat := l.foldl (fun a d => 10 * a + d) 0

/-- Unsigned decimal parse: one or more decimal digits. -/
def atoiCore (ds : List Char) : Option Nat :=
  if ds.isEmpty then none
  else if ds.all isDigitChar then some (parseNatDigits (ds.map charDigit))
  else none

def atoiChars : List Char → Option Int
  | [] => none
  | c :: rest =>
    if c = '-' then (atoiCore rest).map (fun n => -(n : Int))
    else if c = '+' then (atoiCore rest).map (fun n => (n : Int))
    else (atoiCore (c :: rest)).map (fun n => (n : Int))

/-- Go's `strconv.Atoi`: optional sign, then one or more decimal digits. -/
def Atoi (s : String) : Option Int := atoiChars s.data

lemma digitChar_isDigit (d : Nat) (h : d < 10) : isDigitChar (digitChar d) = true := by
  interval_cases d <;> decide

lemma charDigit_digitChar (d : Nat) (h : d < 10) : charDigit (digitChar d) = d := by
  interval_cases d <;> decide

lemma digitsRev_lt (n : Nat) : ∀ d ∈ digitsRev n, d < 10 := by
  induction n using Nat.strong_induction_on with
  | _ n ih =>
    rw [digitsRev]
    split
    · simp
    · rename_i h
      intro d hd
      rcases List.mem_cons.mp hd with h2 | h2
      · subst h2; exact Nat.mod_lt _ (by decide)
      · exact ih (n / 10) (Nat.div_lt_self (Nat.pos_of_ne_zero h) (by decide)) d h2

lemma natDigits_lt (n : Nat) : ∀ d ∈ natDigits n, d < 10 := by
  intro d hd
  rw [natDigits] at hd
  split at hd
  · simp at hd; omega
  · exact digitsRev_lt n d (List.mem_reverse.mp hd)

lemma foldr_digitsRev (n : Nat) :
    (digitsRev n).foldr (fun d a => 10 * a + d) 0 = n := by
  induction n using Nat.strong_induction_on with
  | _ n ih =>
    rw [digitsRev]
    split
    · rename_i h
      simp [h]
    · rename_i h
      simp only [List.foldr_cons]
      rw [ih (n / 10) (Nat.div_lt_self (Nat.pos_of_ne_zero h) (by decide))]
      omega

lemma parseNatDigits_natDigits (n : Nat) : parseNatDigits (natDigits n) = n := by
  rw [natDigits]
  split
  · rename_i h
    simp [parseNatDigits, h]
  · rw [parseNatDigits, List.foldl_reverse]
    have h2 : (fun d a => 10 * a + d) = (fun d a => (fun a d => 10 * a + d) a d) := by
      funext d a
      rfl
    rw [← h2]
    exact foldr_digitsRev n

lemma natDigits_ne_nil (n : Nat) : natDigits n ≠ [] := by
  rw [natDigits]; split
  · simp
  · rename_i h
    rw [digitsRev]
    simp only [if_neg h]
    simp

lemma atoiCore_digits (n : Nat) :
    atoiCore ((natDigits n).map digitChar) = some n := by
  rw [atoiCore, if_neg, if_pos]
  · rw [List.map_map]
    have hmap : (natDigits n).map (charDigit ∘ digitChar) = (natDigits n).map id :=
      List.map_congr_left (fun d hd => charDigit_digitChar d (natDigits_lt n d hd))
    rw [hmap, List.map_id, parseNatDigits_natDigits]
  · apply List.all_eq_true.mpr
    intro c hc
    rcases List.mem_map.mp hc with ⟨d, hd, rfl⟩
    exact digitChar_isDigit d (natDigits_lt n d hd)
  · simp [List.isEmpty_iff, natDigits_ne_nil n]

/-- The decimal rendering/parsing pair used by the wire codec is a
round-trip: `Atoi (intStr i) = some i`. -/
lemma Atoi_intStr (i : Int) : Atoi (intStr i) = some i := by
  rw [Atoi, intStr]
  split
  · rename_i hneg
    show atoiChars ('-' :: (natDigits i.natAbs).map digitChar) = some i
    rw [atoiChars]
    simp only [if_pos rfl]
    rw [atoiCore_digits]
    show some (-(i.natAbs : Int)) = some i
    congr 1
    omega
  · rename_i hpos
    show atoiChars ((natDigits i.natAbs).map digitChar) = some i
    have h0 : ∀ d ∈ natDigits i.natAbs, digitChar d ≠ '-' ∧ digitChar d ≠ '+' := by
      intro d hd
      have := natDigits_lt _ d hd
      interval_cases d <;> exact ⟨by decide, by decide⟩
    match hm : (natDigits i.natAbs).map digitChar with
    | [] => exact absurd (List.map_eq_nil_iff.mp hm) (natDigits_ne_nil _)
    | c :: rest =>
      rcases List.mem_map.mp (hm ▸ List.mem_cons_self c rest) with ⟨d, hd, hdc⟩
      have hc := h0 d hd
      rw [hdc] at hc
      rw [atoiChars]
      simp only [if_neg hc.1, if_neg hc.2]
      rw [← hm, atoiCore_digits]
      show some ((i.natAbs : Int)) = some i
      congr 1
      omega

namespace PTO3

/-- `Condition` from `model.go`: a named measurable property. `id = 0`
means unassigned. -/
structure Condition where
  id : Int
  name : String
deriving DecidableEq, Repr

/-- `Path` from `model.go`: a network-path identifier string. -/
structure Path where
  id : Int
  string : String
deriving DecidableEq, Repr

/-- `ObservationSet` from `model.go`. `sources` and `conditions` are
`Option` so that a Go nil slice (`== nil`) is distinguishable from an
assigned empty slice; `conditionDeclared` models the lazily-built
`map[int]bool` (`none` = Go nil map). -/
structure ObservationSet where
  id : Int
  sources : Option (List String)
  analyzer : String
  conditions : Option (List Condition)
  conditionDeclared : Option (List Int)
  metadata : List (String × String)
  datalink : String
  link : String
  count : Int
deriving DecidableEq, Repr

/-- `Observation` from `model.go`. The `set`, `path` and `condition`
pointers are `Option` (`none` = Go nil pointer). Timestamps are modelled
as integer UTC seconds. -/
structure Observation where
  id : Int
  setID : Int
  set : Option ObservationSet
  start : Int
  end_ : Int
  pathID : Int
  path : Option Path
  conditionID : Int
  condition : Option Condition
  value : Int
deriving DecidableEq, Repr

/-- The error values the embedded code can produce. `genericErr` stands for
`errors.New`/`fmt.Errorf` (indistinguishable generic errors), `storeErr`
for an error surfaced by the database driver (possibly `PTOWrapError`ed),
and `ptoStatusErr` for `PTOErrorf(...).StatusIs(code)` — an error carrying
an explicit HTTP status that a caller can branch on. -/
inductive PTOError where
  | storeErr : String → PTOError
  | genericErr : String → PTOError
  | ptoStatusErr : String → Nat → PTOError
deriving DecidableEq, Repr

/-- Modelled from the spec: `AsString` lives in a repository file that is
not under `src/`. It renders a decoded JSON value as a string: a JSON
string is returned as itself, a JSON number as its decimal rendering, and
the remaining shapes get Go `%v`-style renderings (never decimal
numerals). -/
def AsString : JSON → String
  | .str s => s
  | .num n => intStr n
  | .bool true => "true"
  | .bool false => "false"
  | .null => "<nil>"
  | .arr _ => "[...]"
  | .obj _ => "map[...]"

/-- The element check behind `AsStringArray`: every element must itself be
a JSON string; a single element of the wrong type fails the whole array. -/
def strElems : List JSON → Option (List String)
  | [] => some []
  | .str s :: rest =>
    match strElems rest with
    | some l => some (s :: l)
    | none => none
  | _ :: _ => none

/-- Modelled from the spec: `AsStringArray` lives in a repository file that
is not under `src/`. Per the spec's words — decode fails with a
ValidationError if a required key is of the wrong shape or of the wrong
element type — a JSON array yields `some` exactly when every element is a
JSON string (an empty array yields an assigned empty slice, not a nil
slice); a non-array, or an array containing a non-string element, yields
`none` (Go `nil, false`). -/
def AsStringArray : JSON → Option (List String)
  | .arr xs => strElems xs
  | _ => none

lemma strElems_map_str : ∀ (l : List String), strElems (l.map JSON.str) = some l
  | [] => rfl
  | s :: rest => by
    show (match strElems (rest.map JSON.str) with
          | some l => some (s :: l)
          | none => none) = some (s :: rest)
    rw [strElems_map_str rest]

lemma AsStringArray_strs (l : List String) :
    AsStringArray (.arr (l.map JSON.str)) = some l :=
  strElems_map_str l

/-- `Start.UTC().Format(time.RFC3339)`, abstracted: the canonical text of a
timestamp is modelled as the decimal rendering of its second count. -/
def fmtTime (t : Int) : String := intStr t

/-- `time.Parse(time.RFC3339, s)`, abstracted as the partial inverse of
`fmtTime`. -/
def timeParse (s : String) : Option Int := Atoi s

/-- Go's `strings.HasPrefix` (character-level; condition names and
metadata keys in scope are ASCII, where Go's byte slicing and character
slicing agree). -/
def strHasPfx (s p : String) : Bool := p.data.isPrefixOf s.data

/-- Go's `strings.HasSuffix`. -/
def strHasSfx (s p : String) : Bool := p.data.isSuffixOf s.data

/-- Go's `s[:len(s)-1]`. -/
def strDropLast (s : String) : String := String.mk s.data.dropLast

/-- Insert into a string-keyed Go map, modelled as an association list with
replace-on-collision. -/
def jmapSet (m : List (String × JSON)) (k : String) (v : JSON) : List (String × JSON) :=
  m.filter (fun p => p.1 != k) ++ [(k, v)]

/-- Insert into `map[string]string`. -/
def mapSet (m : List (String × String)) (k : String) (v : String) : List (String × String) :=
  m.filter (fun p => p.1 != k) ++ [(k, v)]

/-- `ObservationSet.MarshalJSON` from `model.go`: build the `jmap` object.
(Go's `json.Marshal` renders map keys in sorted order; key order is
irrelevant to every property proved below, so the model keeps insertion
order.) -/
def ObservationSet.MarshalJSON (set : ObservationSet) : JSON :=
  let jmap : List (String × JSON) := []
  let jmap := jmapSet jmap "_sources"
    (match set.sources with | none => .null | some l => .arr (l.map .str))
  let jmap := jmapSet jmap "_analyzer" (.str set.analyzer)
  let jmap := if set.link != "" then jmapSet jmap "__link" (.str set.link) else jmap
  let jmap := if set.datalink != "" then jmapSet jmap "__data" (.str set.datalink) else jmap
  let jmap := if set.count != 0 then jmapSet jmap "__obs_count" (.num set.count) else jmap
  let conditionNames := (set.conditions.getD []).map Condition.name
  let jmap := if conditionNames.length > 0 then
    jmapSet jmap "_conditions" (.arr (conditionNames.map .str)) else jmap
  let jmap := set.metadata.foldl (fun m kv => jmapSet m kv.1 (.str kv.2)) jmap
  .obj jmap

/-- Go's `json.Unmarshal` into `map[string]interface{}` keeps, for each
key, the last value; the iteration the decoder then performs sees each
key once. -/
def dedupKeys : List (String × JSON) → List (String × JSON)
  | [] => []
  | (k, v) :: rest =>
    if rest.any (fun p => p.1 == k) then dedupKeys rest else (k, v) :: dedupKeys rest

/-- One iteration of the key loop in `ObservationSet.UnmarshalJSON`. -/
def decodeSetEntry (set : ObservationSet) (k : String) (v : JSON) :
    Except PTOError ObservationSet :=
  if k == "_sources" then
    match AsStringArray v with
    | some a => .ok {set with sources := some a}
    | none => .error (.genericErr "_sources not a string array")
  else if k == "_analyzer" then .ok {set with analyzer := AsString v}
  else if k == "_conditions" then
    match AsStringArray v with
    | some names =>
      .ok {set with conditions := some (names.map (fun n => Condition.mk 0 n))}
    | none => .error (.genericErr "_conditions not a string array")
  else if strHasPfx k "__" then .ok set
  else .ok {set with metadata := mapSet set.metadata k (AsString v)}

def decodeSetLoop : List (String × JSON) → ObservationSet → Except PTOError ObservationSet
  | [], set => .ok set
  | (k, v) :: rest, set =>
    match decodeSetEntry set k v with
    | .ok s => decodeSetLoop rest s
    | .error e => .error e

/-- `ObservationSet.UnmarshalJSON` from `model.go`. -/
def ObservationSet.UnmarshalJSON (set : ObservationSet) (b : JSON) :
    Except PTOError ObservationSet :=
  let set := {set with metadata := []}
  match b with
  | .obj kvs =>
    let set := {set with id := 0}
    match decodeSetLoop (dedupKeys kvs) set with
    | .error e => .error e
    | .ok s =>
      if s.sources.isNone then .error (.genericErr "ObservationSet missing _sources")
      else if s.analyzer == "" then .error (.genericErr "ObservationSet missing _analyzer")
      else if s.conditions.isNone then .error (.genericErr "ObservationSet missing _conditions")
      else .ok s
  | _ => .error (.genericErr "json: cannot unmarshal into map")

/-- A fresh `ObservationSet` (Go zero value). -/
def emptySet : ObservationSet :=
  { id := 0, sources := none, analyzer := "", conditions := none,
    conditionDeclared := none, metadata := [], datalink := "", link := "", count := 0 }

/-- `decodeSet` boundary operation: unmarshal into a fresh set. -/
def decodeSet (b : JSON) : Except PTOError ObservationSet :=
  emptySet.UnmarshalJSON b

/-- `encodeSet` boundary operation. -/
def encodeSet (set : ObservationSet) : JSON := set.MarshalJSON

/-- `Observation.MarshalJSON` from `model.go`. `none` models the nil
pointer dereference Go would panic on when `Path`/`Condition` is nil. -/
def Observation.MarshalJSON (obs : Observation) : Option JSON :=
  match obs.path, obs.condition with
  | some p, some c =>
    let jslice : List JSON :=
      [.num obs.setID, .str (fmtTime obs.start), .str (fmtTime obs.end_),
       .str p.string, .str c.name]
    let jslice := if obs.value != 0 then jslice ++ [.num obs.value] else jslice
    some (.arr jslice)
  | _, _ => none

/-- `Observation.UnmarshalJSON` from `model.go`. Note that the error from
`strconv.Atoi` on element 0 is assigned to `err` but `err` is overwritten
by the `time.Parse` of element 1 before it is ever checked; Go's `Atoi`
returns `0` alongside the error, which the model renders as `.getD 0`. -/
def Observation.UnmarshalJSON (obs : Observation) (b : JSON) :
    Except PTOError Observation :=
  match b with
  | .arr jslice =>
    if jslice.length < 5 then
      .error (.genericErr "Observation requires at least five elements")
    else
      let obs := {obs with id := 0}
      let obs := {obs with setID := (Atoi (AsString ((jslice.get? 0).getD .null))).getD 0}
      match timeParse (AsString ((jslice.get? 1).getD .null)) with
      | none => .error (.genericErr "cannot parse start time")
      | some st =>
        match timeParse (AsString ((jslice.get? 2).getD .null)) with
        | none => .error (.genericErr "cannot parse end time")
        | some en =>
          let obs := {obs with
                        start := st, end_ := en,
                        path := some (Path.mk 0 (AsString ((jslice.get? 3).getD .null))),
                        condition := some (Condition.mk 0 (AsString ((jslice.get? 4).getD .null)))}
          if 6 ≤ jslice.length then
            match Atoi (AsString ((jslice.get? 5).getD .null)) with
            | none => .error (.genericErr "cannot parse value")
            | some v => .ok {obs with value := v}
          else .ok obs
  | _ => .error (.genericErr "json: cannot unmarshal into slice")

/-- A fresh `Observation` (Go zero value). -/
def emptyObs : Observation :=
  { id := 0, setID := 0, set := none, start := 0, end_ := 0, pathID := 0,
    path := none, conditionID := 0, condition := none, value := 0 }

/-- `decodeObservation` boundary operation: unmarshal into a fresh
observation. -/
def decodeObservation (b : JSON) : Except PTOError Observation :=
  emptyObs.UnmarshalJSON b

/-- A persisted `observation_sets` row (the main set row; the declared
conditions live in the association table). -/
structure SetRow where
  id : Int
  sources : Option (List String)
  analyzer : String
  metadata : List (String × String)
deriving DecidableEq, Repr

/-- A persisted `observations` row. -/
structure ObsRow where
  id : Int
  setID : Int
  start : Int
  end_ : Int
  pathID : Int
  conditionID : Int
  value : Int
deriving DecidableEq, Repr

/-- The five tables of the store, plus the id sequence (`nextID ≥ 1`;
generated ids are never 0). -/
structure Store where
  conditions : List Condition
  paths : List Path
  setRows : List SetRow
  assocRows : List (Int × Int)
  obsRows : List ObsRow
  nextID : Int
deriving DecidableEq, Repr

/-- Tags for the store round-trips the embedded code performs, recorded in
the operation log so that properties such as "exactly one reload" and "no
store query" are statable. -/
inductive DBOp where
  | selOrInsCond
  | selOrInsPath
  | insSetRow
  | execAssoc
  | insObsRow
  | countQ
  | selAllConds
deriving DecidableEq, Repr

/-- The `orm.DB` handle: store state, an operation counter and log, and a
failure schedule — operation number `i` fails iff `i ∈ failAt`, which makes
"some insert fails" an explicit, quantifiable event. -/
structure DB where
  store : Store
  failAt : List Nat
  opCount : Nat
  log : List DBOp
deriving DecidableEq, Repr

/-- A stateful database computation: Go's `(T, error)` against `orm.DB`.
On error the state reached so far is kept (no implicit rollback). -/
def DBM (α : Type) : Type := DB → Except PTOError α × DB

/-- Run one primitive store operation, honouring the failure schedule. -/
def dbPrim {α : Type} (op : DBOp) (f : Store → Store × α) : DBM α := fun db =>
  let idx := db.opCount
  let db' := {db with opCount := idx + 1, log := db.log ++ [op]}
  if db.failAt.contains idx then (.error (.storeErr "database error"), db')
  else
    let (s, a) := f db'.store
    (.ok a, {db' with store := s})

/-- `SELECT ... OR INSERT` on the `conditions` table keyed by unique
`name`, returning the id. -/
def dbSelectOrInsertCondition (name : String) : DBM Int :=
  dbPrim .selOrInsCond (fun s =>
    match s.conditions.find? (fun c => c.name == name) with
    | some c => (s, c.id)
    | none => ({s with conditions := s.conditions ++ [Condition.mk s.nextID name],
                       nextID := s.nextID + 1}, s.nextID))

/-- `SELECT ... OR INSERT` on the `paths` table keyed by unique `string`. -/
def dbSelectOrInsertPath (str : String) : DBM Int :=
  dbPrim .selOrInsPath (fun s =>
    match s.paths.find? (fun p => p.string == str) with
    | some p => (s, p.id)
    | none => ({s with paths := s.paths ++ [Path.mk s.nextID str],
                       nextID := s.nextID + 1}, s.nextID))

/-- `db.Insert(set)`: insert the main set row, returning the generated id. -/
def dbInsertSetRow (sources : Option (List String)) (analyzer : String)
    (metadata : List (String × String)) : DBM Int :=
  dbPrim .insSetRow (fun s =>
    ({s with setRows := s.setRows ++ [SetRow.mk s.nextID sources analyzer metadata],
             nextID := s.nextID + 1}, s.nextID))

/-- `db.Exec("INSERT INTO observation_set_to_conditions VALUES (?, ?)", ...)`. -/
def dbExecAssoc (setID condID : Int) : DBM Unit :=
  dbPrim .execAssoc (fun s => ({s with assocRows := s.assocRows ++ [(setID, condID)]}, ()))

/-- `db.Insert(obs)`: insert an observation row, returning the generated id. -/
def dbInsertObsRow (obs : Observation) : DBM Int :=
  dbPrim .insObsRow (fun s =>
    let row := ObsRow.mk s.nextID obs.setID obs.start obs.end_ obs.pathID obs.conditionID obs.value
    ({s with obsRows := s.obsRows ++ [row], nextID := s.nextID + 1}, s.nextID))

/-- `db.Model(&Observation{}).Where("set_id = ?", set.ID).Count()`. -/
def dbCountObs (setID : Int) : DBM Int :=
  dbPrim .countQ (fun s =>
    (s, ((s.obsRows.filter (fun r => r.setID == setID)).length : Int)))

/-- `db.Model(&conditions).Select()`: fetch all condition rows. -/
def dbSelectAllConditions : DBM (List Condition) :=
  dbPrim .selAllConds (fun s => (s, s.conditions))

/-- `Condition.InsertOnce` from `model.go`: select-or-insert only when the
id is still unassigned. -/
def Condition.InsertOnce (c : Condition) : DBM Condition := fun db =>
  if c.id == 0 then
    match dbSelectOrInsertCondition c.name db with
    | (.ok i, db') => (.ok {c with id := i}, db')
    | (.error e, db') => (.error e, db')
  else (.ok c, db)

/-- `Path.InsertOnce` from `model.go`. -/
def Path.InsertOnce (p : Path) : DBM Path := fun db =>
  if p.id == 0 then
    match dbSelectOrInsertPath p.string db with
    | (.ok i, db') => (.ok {p with id := i}, db')
    | (.error e, db') => (.error e, db')
  else (.ok p, db)

/-- The association-row loop in `ObservationSet.Insert`. -/
def insertAssocLoop (setID : Int) : List Condition → DBM Unit
  | [] => fun db => (.ok (), db)
  | c :: rest => fun db =>
    match dbExecAssoc setID c.id db with
    | (.ok _, db') => insertAssocLoop setID rest db'
    | (.error e, db') => (.error e, db')

/-- `ObservationSet.Insert` from `model.go`: main row plus one association
row per declared condition, issued as separate statements on the given
handle (there is no transaction in this function). -/
def ObservationSet.Insert (set : ObservationSet) (force : Bool) : DBM ObservationSet := fun db =>
  let set := if force then {set with id := 0} else set
  if set.id == 0 then
    match dbInsertSetRow set.sources set.analyzer set.metadata db with
    | (.error e, db') => (.error e, db')
    | (.ok newID, db') =>
      let set := {set with id := newID}
      match insertAssocLoop set.id (set.conditions.getD []) db' with
      | (.ok _, db2) => (.ok set, db2)
      | (.error e, db2) => (.error e, db2)
  else (.ok set, db)

/-- `ObservationSet.CountObservations` from `model.go`: `if set.count == 0`
query the store and stash the result in `set.count`; the query's error is
discarded (`set.count, _ = ...`), in which case the count is the zero
value. Returns the (possibly updated) instance alongside the count. -/
def ObservationSet.CountObservations (set : ObservationSet) : DBM (Int × ObservationSet) := fun db =>
  if set.count == 0 then
    match dbCountObs set.id db with
    | (.ok n, db') => (.ok (n, {set with count := n}), db')
    | (.error _, db') => (.ok (0, {set with count := 0}), db')
  else (.ok (set.count, set), db)

/-- `Observation.InsertInSet` from `model.go`: build the declared-condition
membership once per set instance, resolve path and condition via
`InsertOnce`, reject an undeclared condition with `fmt.Errorf` (a generic
error — see the FIXME in the source), ensure the parent set is persisted,
then insert the observation row. -/
def Observation.InsertInSet (obs : Observation) (set : ObservationSet) :
    DBM (Observation × ObservationSet) := fun db =>
  let set := match set.conditionDeclared with
    | none => {set with conditionDeclared := some ((set.conditions.getD []).map Condition.id)}
    | some _ => set
  match obs.path with
  | none => (.error (.genericErr "runtime error: nil pointer dereference"), db)
  | some p =>
    match p.InsertOnce db with
    | (.error e, db1) => (.error e, db1)
    | (.ok p', db1) =>
      let obs := {obs with path := some p', pathID := p'.id}
      match obs.condition with
      | none => (.error (.genericErr "runtime error: nil pointer dereference"), db1)
      | some c =>
        match c.InsertOnce db1 with
        | (.error e, db2) => (.error e, db2)
        | (.ok c', db2) =>
          let obs := {obs with condition := some c', conditionID := c'.id}
          if !((set.conditionDeclared.getD []).contains obs.conditionID) then
            (.error (.genericErr
              ("cannot insert observation with undeclared condition " ++ c'.name)), db2)
          else
            match set.Insert false db2 with
            | (.error e, db3) => (.error e, db3)
            | (.ok set', db3) =>
              let obs := {obs with set := some set', setID := set'.id}
              match dbInsertObsRow obs db3 with
              | (.error e, db4) => (.error e, db4)
              | (.ok oid, db4) => (.ok ({obs with id := oid}, set'), db4)

/-- `ConditionCache` from the condition-cache source file: a Go
`map[string]int`, modelled as an association list with unique keys. -/
abbrev ConditionCache := List (String × Int)

/-- Go's comma-ok map read: `id, ok := cache[name]`. -/
def cacheFind? (cache : ConditionCache) (n : String) : Option Int :=
  (cache.find? (fun p => p.1 == n)).map Prod.snd

/-- Go's defaulting map read: `cache[name]` is `0` when absent. -/
def cacheGet (cache : ConditionCache) (n : String) : Int :=
  (cacheFind? cache n).getD 0

/-- Go's map write `cache[name] = id` (replace on collision). -/
def cacheSet (cache : ConditionCache) (n : String) (v : Int) : ConditionCache :=
  cache.filter (fun p => p.1 != n) ++ [(n, v)]

/-- `ConditionCache.SetConditionID`: cache hit fills in the id; on a miss,
insert-once if the condition has no id yet, then cache it. -/
def ConditionCache.SetConditionID (cache : ConditionCache) (c : Condition) :
    DBM (Condition × ConditionCache) := fun db =>
  match cacheFind? cache c.name with
  | some i => (.ok ({c with id := i}, cache), db)
  | none =>
    if c.id == 0 then
      match c.InsertOnce db with
      | (.error e, db') => (.error e, db')
      | (.ok c', db') => (.ok (c', cacheSet cache c'.name c'.id), db')
    else (.ok (c, cacheSet cache c.name c.id), db)

/-- The loop of `ConditionCache.FillConditionIDsInSet`. Go's
`for _, c := range set.Conditions` binds `c` to a copy of each slice
element, so the id `SetConditionID` writes through `&c` never reaches the
set's slice; only the cache (and the store) are updated. -/
def fillLoop : ConditionCache → List Condition → DBM ConditionCache
  | cache, [] => fun db => (.ok cache, db)
  | cache, c :: rest => fun db =>
    match ConditionCache.SetConditionID cache c db with
    | (.error e, db') => (.error e, db')
    | (.ok (_, cache'), db') => fillLoop cache' rest db'

/-- `ConditionCache.FillConditionIDsInSet`: applies `SetConditionID` to a
copy of every declared condition in order, aborting on the first failure.
The set value itself comes back unchanged (see `fillLoop`). -/
def ConditionCache.FillConditionIDsInSet (cache : ConditionCache) (set : ObservationSet) :
    DBM (ConditionCache × ObservationSet) := fun db =>
  match fillLoop cache (set.conditions.getD []) db with
  | (.error e, db') => (.error e, db')
  | (.ok cache', db') => (.ok (cache', set), db')

/-- `ConditionCache.Reload`: bulk-fetch all condition rows and fold them
into the cache (monotonic refresh; nothing is discarded). -/
def ConditionCache.Reload (cache : ConditionCache) : DBM ConditionCache := fun db =>
  match dbSelectAllConditions db with
  | (.error e, db') => (.error e, db')
  | (.ok conds, db') =>
    (.ok (conds.foldl (fun ca c => cacheSet ca c.name c.id) cache), db')

/-- `ConditionCache.ConditionsByName`: trailing-`.*` patterns reload and
prefix-match over the cache keys; exact names are served from the cache,
with one reload forced on a miss and a 400-status error if still absent. -/
def ConditionCache.ConditionsByName (cache : ConditionCache) (conditionName : String) :
    DBM (List Condition × ConditionCache) := fun db =>
  if strHasSfx conditionName ".*" then
    match ConditionCache.Reload cache db with
    | (.error e, db') => (.error e, db')
    | (.ok cache', db') =>
      let pfx := strDropLast conditionName
      let out := ((cache'.map Prod.fst).filter (fun n => strHasPfx n pfx)).map
        (fun n => Condition.mk (cacheGet cache' n) n)
      (.ok (out, cache'), db')
  else
    if cacheGet cache conditionName == 0 then
      match ConditionCache.Reload cache db with
      | (.error e, db') => (.error e, db')
      | (.ok cache', db') =>
        if cacheGet cache' conditionName == 0 then
          (.error (.ptoStatusErr ("unknown condition " ++ conditionName) 400), db')
        else
          (.ok ([Condition.mk (cacheGet cache' conditionName) conditionName], cache'), db')
    else
      (.ok ([Condition.mk (cacheGet cache conditionName) conditionName], cache), db)

/-- C1: at a concrete input whose observation resolves to a condition id
(3) that is not among the parent set's declared condition ids ([1]),
`Observation.InsertInSet` does reject before persisting the set row or the
observation row — but the error it returns is a plain `fmt.Errorf` generic
error (`genericErr`), carrying no client-distinguishable kind or status.
A caller cannot tell it apart from any other generic failure (the source's
own FIXME notes it surfaces as a 500), contradicting the claim's required
client-input ReferentialError. -/
theorem c1_undeclared_condition_rejected_with_generic_error :
    Observation.InsertInSet
      {emptyObs with path := some (Path.mk 0 "p"),
                     condition := some (Condition.mk 0 "nope.cond")}
      {emptySet with sources := some ["s"], analyzer := "a",
                     conditions := some [Condition.mk 1 "works.well"]}
      (DB.mk (Store.mk [Condition.mk 1 "works.well"] [] [] [] [] 2) [] 0 [])
    = (.error (.genericErr "cannot insert observation with undeclared condition nope.cond"),
       DB.mk (Store.mk [Condition.mk 1 "works.well", Condition.mk 3 "nope.cond"]
                       [Path.mk 2 "p"] [] [] [] 4) [] 2
             [DBOp.selOrInsPath, DBOp.selOrInsCond]) := by
  rfl

/-- C2: `FillConditionIDsInSet` on a set declaring one unresolved condition
succeeds, inserts the condition row (id 1) and caches it — but the set's
own declared-condition list still carries id 0 afterwards, because Go's
`for _, c := range set.Conditions` iterates over copies and
`SetConditionID(db, &c)` writes the id into the copy. This contradicts the
function's documented purpose ("ensures all the conditions in a given
observation set have valid IDs") and the claim's conclusion. -/
theorem c2_fill_leaves_set_condition_ids_unresolved :
    ConditionCache.FillConditionIDsInSet []
      {emptySet with conditions := some [Condition.mk 0 "c.cond"]}
      (DB.mk (Store.mk [] [] [] [] [] 1) [] 0 [])
    = (.ok ([("c.cond", 1)], {emptySet with conditions := some [Condition.mk 0 "c.cond"]}),
       DB.mk (Store.mk [Condition.mk 1 "c.cond"] [] [] [] [] 2) [] 1
             [DBOp.selOrInsCond]) := by
  rfl

/-- C3: `ObservationSet.Insert` issues the main set-row insert and the
association-row inserts as separate statements with no transaction. With a
store failure on the second association insert (operation index 2), the
call errors but leaves the store changed: the set row and a proper subset
of the association rows ([(3, 1)] out of the declared (3, 1), (3, 2)) are
persisted, contradicting the claimed all-or-nothing behaviour. -/
theorem c3_insert_set_is_not_atomic :
    ObservationSet.Insert
      {emptySet with sources := some ["s"], analyzer := "a",
                     conditions := some [Condition.mk 1 "c1", Condition.mk 2 "c2"]}
      false
      (DB.mk (Store.mk [Condition.mk 1 "c1", Condition.mk 2 "c2"] [] [] [] [] 3) [2] 0 [])
    = (.error (.storeErr "database error"),
       DB.mk (Store.mk [Condition.mk 1 "c1", Condition.mk 2 "c2"] []
                       [SetRow.mk 3 (some ["s"]) "a" []] [(3, 1)] [] 4) [2] 3
             [DBOp.insSetRow, DBOp.execAssoc, DBOp.execAssoc]) := by
  rfl

/-- C9 counterexample: for a set instance whose observation count is zero,
every call of `CountObservations` re-queries the store (the zero result is
indistinguishable from "not yet computed"), and a store mutation between
the calls is reflected in the second result: the first call on an empty
store returns 0 after one `countQ` operation, and a second call on the
returned instance — after an observation row for this set appears —
performs another `countQ` and returns 1. -/
theorem c9_counterexample_zero_count_requeried_and_mutation_reflected :
    (ObservationSet.CountObservations {emptySet with id := 1}
      (DB.mk (Store.mk [] [] [] [] [] 1) [] 0 [])
     = (.ok (0, {emptySet with id := 1}),
        DB.mk (Store.mk [] [] [] [] [] 1) [] 1 [DBOp.countQ]))
    ∧ (ObservationSet.CountObservations {emptySet with id := 1}
        (DB.mk (Store.mk [] [] [] [] [ObsRow.mk 5 1 0 10 2 3 0] 6) [] 1 [DBOp.countQ])
       = (.ok (1, {emptySet with id := 1, count := 1}),
          DB.mk (Store.mk [] [] [] [] [ObsRow.mk 5 1 0 10 2 3 0] 6) [] 2
                [DBOp.countQ, DBOp.countQ])) :=
  ⟨rfl, rfl⟩

/-- C9 (amended): `CountObservations` caches the count on the instance and
skips the store exactly when the cached value is non-zero: (1) on an
instance whose `count` field is already non-zero it returns that value
with no store interaction at all; (2) after any call that returned a
non-zero count, a further call on the returned instance is a pure no-op
returning the same count. (A zero count is never cached — see the
counterexample.) -/
theorem c9_amended_count_cached_when_nonzero :
    (∀ (set : ObservationSet) (db : DB), set.count ≠ 0 →
      ObservationSet.CountObservations set db = (.ok (set.count, set), db))
    ∧ (∀ (set : ObservationSet) (db db' : DB) (n : Int) (set' : ObservationSet),
        ObservationSet.CountObservations set db = (.ok (n, set'), db') → n ≠ 0 →
        ObservationSet.CountObservations set' db' = (.ok (n, set'), db')) := by
  constructor
  · intro set db h
    unfold ObservationSet.CountObservations
    have hb : (set.count == 0) = false := by
      simp [h]
    rw [hb]
    simp
  · intro set db db' n set' h hn
    unfold ObservationSet.CountObservations at h ⊢
    by_cases h0 : set.count = 0
    · have hb : (set.count == 0) = true := by simp [h0]
      rw [hb] at h
      rcases hq : dbCountObs set.id db with ⟨r, dbq⟩
      rw [hq] at h
      cases r with
      | ok m =>
        simp only [if_pos, Prod.mk.injEq, Except.ok.injEq] at h
        obtain ⟨⟨h1, h2⟩, h3⟩ := h
        rw [← h2, ← h3]
        have hm : m ≠ 0 := by rw [h1]; exact hn
        have hb' : (({set with count := m} : ObservationSet).count == 0) = false := by
          simp [hm]
        rw [hb']
        simp [h1]
      | error e =>
        simp only [if_pos, Prod.mk.injEq, Except.ok.injEq] at h
        exact absurd h.1.1.symm hn
    · have hb : (set.count == 0) = false := by simp [h0]
      rw [hb] at h
      simp only [Bool.false_eq_true, if_false, Prod.mk.injEq, Except.ok.injEq] at h
      obtain ⟨⟨hcn, hss⟩, hdb⟩ := h
      subst hcn
      subst hss
      subst hdb
      rw [hb]
      simp

/-- Closed witness for the amended C9 theorem, discharging both
hypothesis sets at concrete inputs. -/
theorem c9_amended_count_cached_when_nonzero_witness :
    ObservationSet.CountObservations {emptySet with id := 1, count := 7}
      (DB.mk (Store.mk [] [] [] [] [] 1) [] 0 [])
    = (.ok (7, {emptySet with id := 1, count := 7}),
       DB.mk (Store.mk [] [] [] [] [] 1) [] 0 []) :=
  c9_amended_count_cached_when_nonzero.1 _ _ (by decide)

/-- C10: `Observation.UnmarshalJSON` never fails because of the first
array element. For any array of at least five elements whose timestamps
parse (and whose sixth element, when present, parses as an integer), a
first element whose text does not parse as an integer still decodes
successfully — the `strconv.Atoi` error for element 0 is overwritten
before being checked — and the decoded set id is the zero value 0. -/
theorem c10_unparseable_set_id_ignored (jslice : List JSON) (st en : Int)
    (h5 : 5 ≤ jslice.length)
    (h0 : Atoi (AsString ((jslice.get? 0).getD .null)) = none)
    (h1 : timeParse (AsString ((jslice.get? 1).getD .null)) = some st)
    (h2 : timeParse (AsString ((jslice.get? 2).getD .null)) = some en)
    (hv : 6 ≤ jslice.length → ∃ v, Atoi (AsString ((jslice.get? 5).getD .null)) = some v) :
    ∃ O, decodeObservation (.arr jslice) = .ok O ∧ O.setID = 0 := by
  unfold decodeObservation Observation.UnmarshalJSON
  dsimp only
  have hlt : ¬ (jslice.length < 5) := by omega
  rw [if_neg hlt, h0, h1, h2]
  dsimp only
  by_cases h6 : 6 ≤ jslice.length
  · obtain ⟨v, hv6⟩ := hv h6
    rw [if_pos h6, hv6]
    exact ⟨_, rfl, rfl⟩
  · rw [if_neg h6]
    exact ⟨_, rfl, rfl⟩

/-- Closed witness for C10 at the concrete line
`["abc", "100", "200", "1.2.3.0/24", "icmp.unreachable"]`. -/
theorem c10_unparseable_set_id_ignored_witness :
    (Atoi (AsString ((([JSON.str "abc", JSON.str "100", JSON.str "200",
        JSON.str "1.2.3.0/24", JSON.str "icmp.unreachable"].get? 0).getD .null))) = none)
    ∧ ∃ O, decodeObservation (.arr [JSON.str "abc", JSON.str "100", JSON.str "200",
        JSON.str "1.2.3.0/24", JSON.str "icmp.unreachable"]) = .ok O ∧ O.setID = 0 :=
  ⟨rfl, c10_unparseable_set_id_ignored _ 100 200 (by decide) rfl rfl rfl
    (fun h => absurd h (by decide))⟩

/-- Full characterization of a successful `decodeObservation` run, split by
whether the optional sixth element is present. -/
lemma decodeObservation_characterization (jslice : List JSON) (sid : Option Int)
    (st en : Int) (h5 : 5 ≤ jslice.length)
    (h0 : Atoi (AsString ((jslice.get? 0).getD .null)) = sid)
    (h1 : timeParse (AsString ((jslice.get? 1).getD .null)) = some st)
    (h2 : timeParse (AsString ((jslice.get? 2).getD .null)) = some en) :
    (jslice.length < 6 →
      decodeObservation (.arr jslice) = .ok
        { id := 0, setID := sid.getD 0, set := none, start := st, end_ := en,
          pathID := 0, path := some (Path.mk 0 (AsString ((jslice.get? 3).getD .null))),
          conditionID := 0,
          condition := some (Condition.mk 0 (AsString ((jslice.get? 4).getD .null))),
          value := 0 }) ∧
    (∀ v, 6 ≤ jslice.length → Atoi (AsString ((jslice.get? 5).getD .null)) = some v →
      decodeObservation (.arr jslice) = .ok
        { id := 0, setID := sid.getD 0, set := none, start := st, end_ := en,
          pathID := 0, path := some (Path.mk 0 (AsString ((jslice.get? 3).getD .null))),
          conditionID := 0,
          condition := some (Condition.mk 0 (AsString ((jslice.get? 4).getD .null))),
          value := v }) := by
  unfold decodeObservation Observation.UnmarshalJSON
  dsimp only
  rw [if_neg (by omega), h0, h1, h2]
  dsimp only
  constructor
  · intro h6
    rw [if_neg (by omega)]
    rfl
  · intro v h6 hv
    rw [if_pos h6, hv]
    rfl

/-- C6: the observation codec round-trips. For any observation with
non-nil path and condition pointers, encoding yields a JSON array with a
sixth element exactly when `value` is non-zero, and decoding that array
recovers the same set id, start, end, path string, condition name and
value (path/condition come back as placeholders with unassigned id 0;
a missing sixth element decodes to value 0). -/
theorem c6_observation_roundtrip (O : Observation) (p : Path) (c : Condition)
    (hp : O.path = some p) (hc : O.condition = some c) :
    ∃ l, O.MarshalJSON = some (.arr l) ∧
      l.length = (if O.value = 0 then 5 else 6) ∧
      ∃ O', decodeObservation (.arr l) = .ok O' ∧
        O'.setID = O.setID ∧ O'.start = O.start ∧ O'.end_ = O.end_ ∧
        O'.path = some (Path.mk 0 p.string) ∧
        O'.condition = some (Condition.mk 0 c.name) ∧
        O'.value = O.value := by
  unfold Observation.MarshalJSON
  rw [hp, hc]
  dsimp only
  by_cases hv : O.value = 0
  · have hb : (O.value != 0) = false := by simp [hv]
    rw [hb]
    rw [if_neg (by simp)]
    refine ⟨_, rfl, by simp [hv], ?_⟩
    have hch := decodeObservation_characterization
      [.num O.setID, .str (fmtTime O.start), .str (fmtTime O.end_),
       .str p.string, .str c.name]
      (some O.setID) O.start O.end_ (by simp only [List.length_cons, List.length_nil]; omega)
      (Atoi_intStr O.setID) (Atoi_intStr O.start) (Atoi_intStr O.end_)
    exact ⟨_, hch.1 (by simp only [List.length_cons, List.length_nil]; omega), rfl, rfl, rfl, rfl, rfl, hv.symm⟩
  · have hb : (O.value != 0) = true := by simp [hv]
    rw [hb]
    rw [if_pos rfl]
    simp only [List.cons_append, List.nil_append]
    refine ⟨_, rfl, by simp [hv], ?_⟩
    have hch := decodeObservation_characterization
      [.num O.setID, .str (fmtTime O.start), .str (fmtTime O.end_),
       .str p.string, .str c.name, .num O.value]
      (some O.setID) O.start O.end_ (by simp only [List.length_cons, List.length_nil]; omega)
      (Atoi_intStr O.setID) (Atoi_intStr O.start) (Atoi_intStr O.end_)
    exact ⟨_, hch.2 O.value (by simp only [List.length_cons, List.length_nil]; omega) (Atoi_intStr O.value), rfl, rfl, rfl, rfl, rfl, rfl⟩

/-- Closed witness for C6 at a concrete observation with a non-zero
value. -/
theorem c6_observation_roundtrip_witness :
    (Observation.mk 4 9 none 100 200 7 (some (Path.mk 7 "1.2.3.0/24")) 8 (some (Condition.mk 8 "icmp.unreachable")) (-3)).path = some (Path.mk 7 "1.2.3.0/24")
    ∧ ∃ l, (Observation.mk 4 9 none 100 200 7 (some (Path.mk 7 "1.2.3.0/24")) 8 (some (Condition.mk 8 "icmp.unreachable")) (-3)).MarshalJSON = some (.arr l) ∧
      l.length = (if ((-3 : Int)) = 0 then 5 else 6) ∧
      ∃ O', decodeObservation (.arr l) = .ok O' ∧
        O'.setID = 9 ∧ O'.start = 100 ∧ O'.end_ = 200 ∧
        O'.path = some (Path.mk 0 "1.2.3.0/24") ∧
        O'.condition = some (Condition.mk 0 "icmp.unreachable") ∧
        O'.value = -3 :=
  ⟨rfl, c6_observation_roundtrip
    (Observation.mk 4 9 none 100 200 7 (some (Path.mk 7 "1.2.3.0/24")) 8 (some (Condition.mk 8 "icmp.unreachable")) (-3))
    (Path.mk 7 "1.2.3.0/24") (Condition.mk 8 "icmp.unreachable") rfl rfl⟩

/-- `Reload` under an empty failure schedule: one `selAllConds` operation,
the store untouched, and the cache refreshed by folding every condition
row in. -/
lemma Reload_no_failure (cache : ConditionCache) (db : DB) (h : db.failAt = []) :
    ConditionCache.Reload cache db =
      (.ok (db.store.conditions.foldl (fun ca c => cacheSet ca c.name c.id) cache),
       {db with opCount := db.opCount + 1, log := db.log ++ [DBOp.selAllConds]}) := by
  unfold ConditionCache.Reload dbSelectAllConditions dbPrim
  rw [h]
  rfl

/-- C7: exact (non-wildcard) condition lookup. If the name is cached (its
cached id is non-zero), the single cached condition is returned with no
store interaction at all. Otherwise, assuming the store does not fail,
exactly one reload (`selAllConds`) is performed and no other store
operation; if the name is cached after the reload the single matching
condition is returned, and otherwise the call fails with the
client-status-400 error naming the missing condition. -/
theorem c7_exact_lookup_cached_or_one_reload (cache : ConditionCache) (db : DB)
    (n : String) (hw : strHasSfx n ".*" = false) :
    (cacheGet cache n ≠ 0 →
      ConditionCache.ConditionsByName cache n db
        = (.ok ([Condition.mk (cacheGet cache n) n], cache), db))
    ∧ (∀ (cache' : ConditionCache) (db' : DB),
        cacheGet cache n = 0 → db.failAt = [] →
        ConditionCache.Reload cache db = (.ok cache', db') →
        db'.log = db.log ++ [DBOp.selAllConds] ∧
        db'.store = db.store ∧
        (cacheGet cache' n ≠ 0 →
          ConditionCache.ConditionsByName cache n db
            = (.ok ([Condition.mk (cacheGet cache' n) n], cache'), db'))
        ∧ (cacheGet cache' n = 0 →
          ConditionCache.ConditionsByName cache n db
            = (.error (.ptoStatusErr ("unknown condition " ++ n) 400), db'))) := by
  constructor
  · intro hnz
    unfold ConditionCache.ConditionsByName
    rw [hw]
    have hb : (cacheGet cache n == 0) = false := by simp [hnz]
    simp only [Bool.false_eq_true, if_false, hb]
  · intro cache' db' hz hf hrel
    have hrel' := Reload_no_failure cache db hf
    rw [hrel'] at hrel
    have hc' : cache' = db.store.conditions.foldl (fun ca c => cacheSet ca c.name c.id) cache := by
      have := congrArg Prod.fst hrel
      simpa using this.symm
    have hd' : db' = {db with opCount := db.opCount + 1, log := db.log ++ [DBOp.selAllConds]} := by
      have := congrArg Prod.snd hrel
      simpa using this.symm
    refine ⟨by rw [hd'], by rw [hd'], ?_, ?_⟩
    · intro hnz
      unfold ConditionCache.ConditionsByName
      rw [hw]
      simp only [Bool.false_eq_true, if_false]
      have hb : (cacheGet cache n == 0) = true := by simp [hz]
      rw [hb, if_pos rfl, hrel']
      dsimp only
      have hb' : (cacheGet (db.store.conditions.foldl (fun ca c => cacheSet ca c.name c.id) cache) n == 0) = false := by
        rw [← hc']
        simp [hnz]
      rw [hb']
      simp only [Bool.false_eq_true, if_false]
      rw [← hc', ← hd']
    · intro hz'
      unfold ConditionCache.ConditionsByName
      rw [hw]
      simp only [Bool.false_eq_true, if_false]
      have hb : (cacheGet cache n == 0) = true := by simp [hz]
      rw [hb, if_pos rfl, hrel']
      dsimp only
      have hb' : (cacheGet (db.store.conditions.foldl (fun ca c => cacheSet ca c.name c.id) cache) n == 0) = true := by
        rw [← hc']
        simp [hz']
      rw [hb', if_pos rfl, ← hd']

/-- Closed witness for C7: looking up `"nope"` against an empty cache and
an empty store performs one reload and fails with the 400-status error
naming the condition. -/
theorem c7_exact_lookup_witness :
    ConditionCache.ConditionsByName [] "nope" (DB.mk (Store.mk [] [] [] [] [] 1) [] 0 [])
      = (.error (.ptoStatusErr ("unknown condition " ++ "nope") 400),
         DB.mk (Store.mk [] [] [] [] [] 1) [] 1 [DBOp.selAllConds]) :=
  ((c7_exact_lookup_cached_or_one_reload [] (DB.mk (Store.mk [] [] [] [] [] 1) [] 0 [])
      "nope" rfl).2 [] (DB.mk (Store.mk [] [] [] [] [] 1) [] 1 [DBOp.selAllConds])
      rfl rfl rfl).2.2.2 rfl

lemma keys_filter_ne (c : ConditionCache) (n : String) :
    (c.filter (fun p => p.1 != n)).map Prod.fst
      = (c.map Prod.fst).filter (fun k => k != n) := by
  induction c with
  | nil => rfl
  | cons p rest ih =>
    simp only [List.filter_cons, List.map_cons]
    by_cases hp : (p.1 != n) = true
    · rw [if_pos hp, if_pos hp, List.map_cons, ih]
    · rw [if_neg hp, if_neg hp]
      exact ih

lemma cacheSet_keys_nodup (c : ConditionCache) (n : String) (v : Int)
    (h : (c.map Prod.fst).Nodup) : ((cacheSet c n v).map Prod.fst).Nodup := by
  unfold cacheSet
  rw [List.map_append, keys_filter_ne]
  apply List.Nodup.append
  · exact h.filter _
  · simp
  · intro k hk1 hk2
    simp at hk2
    subst hk2
    have := (List.mem_filter.mp hk1).2
    simp at this
lemma reload_fold_keys_nodup : ∀ (conds : List Condition) (cache : ConditionCache),
    (cache.map Prod.fst).Nodup →
    ((conds.foldl (fun ca c => cacheSet ca c.name c.id) cache).map Prod.fst).Nodup
  | [], _, h => h
  | c :: rest, cache, h =>
    reload_fold_keys_nodup rest _ (cacheSet_keys_nodup cache c.name c.id h)

lemma cacheFind_eq_of_mem : ∀ {c : ConditionCache}, (c.map Prod.fst).Nodup →
    ∀ {n : String} {i : Int}, (n, i) ∈ c → cacheFind? c n = some i := by
  intro c
  induction c with
  | nil =>
    intro _ n i h
    simp at h
  | cons p rest ih =>
    intro hnd n i h
    obtain ⟨k, v⟩ := p
    rcases List.mem_cons.mp h with h1 | h1
    · cases h1
      unfold cacheFind?
      rw [List.find?_cons_of_pos _ (by simp)]
      rfl
    · have hnc : (∀ x : Int, (k, x) ∉ rest) ∧ (rest.map Prod.fst).Nodup := by
        simpa using hnd
      have hk : k ≠ n := by
        intro he
        exact hnc.1 i (he ▸ h1)
      unfold cacheFind?
      rw [List.find?_cons_of_neg _ (by simp [hk])]
      exact ih hnc.2 h1

lemma mem_of_cacheFind {c : ConditionCache} {n : String} {i : Int}
    (h : cacheFind? c n = some i) : (n, i) ∈ c := by
  unfold cacheFind? at h
  cases hf : c.find? (fun p => p.1 == n) with
  | none => rw [hf] at h; simp at h
  | some p =>
    rw [hf] at h
    simp only [Option.map_some'] at h
    have hp := List.find?_some hf
    have hmem := List.mem_of_find?_eq_some hf
    obtain ⟨k, v⟩ := p
    have hkn : k = n := eq_of_beq (by simpa using hp)
    have hvi : v = i := by simpa using h
    subst hkn
    subst hvi
    exact hmem

lemma cacheGet_eq_of_mem {c : ConditionCache} (hnd : (c.map Prod.fst).Nodup)
    {n : String} {i : Int} (h : (n, i) ∈ c) : cacheGet c n = i := by
  unfold cacheGet
  rw [cacheFind_eq_of_mem hnd h]
  rfl

/-- C8: wildcard lookup. For any pattern with the literal suffix `.*`, and
assuming the store does not fail, `ConditionsByName` first reloads the
cache in full and then returns a successful (possibly empty) result whose
members are exactly the post-reload cache entries whose name starts with
the pattern minus its trailing `*` (plain string-prefix test, dot
included). -/
theorem c8_wildcard_prefix_match (cache : ConditionCache) (db : DB) (pat : String)
    (hw : strHasSfx pat ".*" = true) (hf : db.failAt = [])
    (hnd : (cache.map Prod.fst).Nodup) :
    ∀ (cache' : ConditionCache) (db' : DB),
      ConditionCache.Reload cache db = (.ok cache', db') →
      ∃ out, ConditionCache.ConditionsByName cache pat db = (.ok (out, cache'), db') ∧
        ∀ (i : Int) (n : String),
          Condition.mk i n ∈ out ↔ ((n, i) ∈ cache' ∧ strHasPfx n (strDropLast pat) = true) := by
  intro cache' db' hrel
  have hrel' := Reload_no_failure cache db hf
  rw [hrel'] at hrel
  have hc' : cache' = db.store.conditions.foldl (fun ca c => cacheSet ca c.name c.id) cache := by
    have := congrArg Prod.fst hrel
    simpa using this.symm
  have hd' : db' = {db with opCount := db.opCount + 1, log := db.log ++ [DBOp.selAllConds]} := by
    have := congrArg Prod.snd hrel
    simpa using this.symm
  have hnd' : (cache'.map Prod.fst).Nodup := by
    rw [hc']
    exact reload_fold_keys_nodup _ _ hnd
  refine ⟨((cache'.map Prod.fst).filter (fun m => strHasPfx m (strDropLast pat))).map
    (fun m => Condition.mk (cacheGet cache' m) m), ?_, ?_⟩
  · unfold ConditionCache.ConditionsByName
    rw [hw, if_pos rfl, hrel']
    dsimp only
    rw [← hc', ← hd']
  · intro i n
    constructor
    · intro h
      rcases List.mem_map.mp h with ⟨m, hm, heq⟩
      obtain ⟨hieq, hneq⟩ := Condition.mk.injEq .. ▸ heq
      subst hneq
      have hm2 := List.mem_filter.mp hm
      rcases List.mem_map.mp hm2.1 with ⟨p, hp, hpf⟩
      obtain ⟨k, v⟩ := p
      simp only [] at hpf
      subst hpf
      have : cacheGet cache' k = v := cacheGet_eq_of_mem hnd' hp
      rw [← hieq, this]
      exact ⟨hp, hm2.2⟩
    · rintro ⟨hmem, hpfx⟩
      have hg : cacheGet cache' n = i := cacheGet_eq_of_mem hnd' hmem
      refine List.mem_map.mpr ⟨n, List.mem_filter.mpr ⟨?_, hpfx⟩, by rw [hg]⟩
      exact List.mem_map.mpr ⟨(n, i), hmem, rfl⟩

/-- Closed witness for C8: with conditions `http.get`, `http.post`,
`ftp.get` stored and an empty cache, the pattern `http.*` yields exactly
the two `http.`-prefixed conditions. -/
theorem c8_wildcard_prefix_match_witness :
    (∃ out, ConditionCache.ConditionsByName [] "http.*"
        (DB.mk (Store.mk [Condition.mk 1 "http.get", Condition.mk 2 "http.post",
                          Condition.mk 3 "ftp.get"] [] [] [] [] 4) [] 0 [])
      = (.ok (out, [("http.get", 1), ("http.post", 2), ("ftp.get", 3)]),
         DB.mk (Store.mk [Condition.mk 1 "http.get", Condition.mk 2 "http.post",
                          Condition.mk 3 "ftp.get"] [] [] [] [] 4) [] 1 [DBOp.selAllConds]) ∧
      ∀ (i : Int) (n : String),
        Condition.mk i n ∈ out ↔
          ((n, i) ∈ ([("http.get", 1), ("http.post", 2), ("ftp.get", 3)] : ConditionCache) ∧
           strHasPfx n (strDropLast "http.*") = true)) :=
  c8_wildcard_prefix_match [] _ "http.*" rfl rfl (by simp)
    [("http.get", 1), ("http.post", 2), ("ftp.get", 3)] _ rfl

lemma strHasPfx_of_double (s : String) (h : strHasPfx s "__" = true) :
    strHasPfx s "_" = true := by
  unfold strHasPfx at h ⊢
  rw [List.isPrefixOf_iff_prefix] at h ⊢
  exact List.IsPrefix.trans (by decide) h

lemma ne_of_pfx (k km : String) (hk : strHasPfx k "_" = true)
    (hm : strHasPfx km "_" = false) : k ≠ km := by
  intro he
  rw [he, hm] at hk
  cases hk

lemma decodeSetLoop_append : ∀ (l1 l2 : List (String × JSON)) (st : ObservationSet),
    decodeSetLoop (l1 ++ l2) st
      = (match decodeSetLoop l1 st with
         | .ok s => decodeSetLoop l2 s
         | .error e => .error e)
  | [], l2, st => rfl
  | (k, v) :: rest, l2, st => by
    show (match decodeSetEntry st k v with
          | .ok s => decodeSetLoop (rest ++ l2) s
          | .error e => .error e)
        = (match (match decodeSetEntry st k v with
                  | .ok s => decodeSetLoop rest s
                  | .error e => .error e) with
           | .ok s => decodeSetLoop l2 s
           | .error e => .error e)
    cases hent : decodeSetEntry st k v with
    | ok s =>
      dsimp only
      exact decodeSetLoop_append rest l2 s
    | error e =>
      rfl

lemma dedupKeys_eq_self : ∀ (l : List (String × JSON)),
    (l.map Prod.fst).Nodup → dedupKeys l = l
  | [], _ => rfl
  | (k, v) :: rest, h => by
    rw [dedupKeys]
    have h' : (∀ x : JSON, (k, x) ∉ rest) ∧ (rest.map Prod.fst).Nodup := by
      simpa using h
    have hany : (rest.any (fun p => p.1 == k)) = false := by
      rw [List.any_eq_false]
      intro p hp he
      have hk : p.1 = k := eq_of_beq he
      exact h'.1 p.2 (by rw [← hk]; simpa using hp)
    rw [hany, if_neg (by decide)]
    rw [dedupKeys_eq_self rest h'.2]

lemma decodeSetLoop_flags : ∀ (flags : List (String × JSON)) (st : ObservationSet),
    (∀ kv ∈ flags, kv.1 = "__link" ∨ kv.1 = "__data" ∨ kv.1 = "__obs_count") →
    decodeSetLoop flags st = .ok st
  | [], _, _ => rfl
  | (k, v) :: rest, st, h => by
    have hk := h (k, v) (List.mem_cons_self _ _)
    have hent : decodeSetEntry st k v = .ok st := by
      rcases hk with hk | hk | hk <;>
        (subst hk; rfl)
    unfold decodeSetLoop
    rw [hent]
    exact decodeSetLoop_flags rest st (fun kv hkv => h kv (List.mem_cons_of_mem _ hkv))

lemma decodeSetLoop_metadata : ∀ (m : List (String × String)) (st : ObservationSet),
    (∀ kv ∈ m, strHasPfx kv.1 "_" = false) →
    ((st.metadata.map Prod.fst) ++ m.map Prod.fst).Nodup →
    decodeSetLoop (m.map (fun kv => (kv.1, JSON.str kv.2))) st
      = .ok {st with metadata := st.metadata ++ m}
  | [], st, _, _ => by
    have hm : st.metadata ++ ([] : List (String × String)) = st.metadata := by simp
    rw [List.map_nil, hm]
    rfl
  | (k, v) :: rest, st, hpfx, hnd => by
    have hkp : strHasPfx k "_" = false := hpfx (k, v) (List.mem_cons_self _ _)
    have hk1 : (k == "_sources") = false := by
      simp only [beq_eq_false_iff_ne, ne_eq]
      intro he
      rw [he] at hkp
      exact absurd hkp (by decide)
    have hk2 : (k == "_analyzer") = false := by
      simp only [beq_eq_false_iff_ne, ne_eq]
      intro he
      rw [he] at hkp
      exact absurd hkp (by decide)
    have hk3 : (k == "_conditions") = false := by
      simp only [beq_eq_false_iff_ne, ne_eq]
      intro he
      rw [he] at hkp
      exact absurd hkp (by decide)
    have hk4 : strHasPfx k "__" = false := by
      cases hd : strHasPfx k "__" with
      | false => rfl
      | true => exact absurd (strHasPfx_of_double k hd) (by rw [hkp]; decide)
    have hent : decodeSetEntry st k (.str v)
        = .ok {st with metadata := mapSet st.metadata k v} := by
      unfold decodeSetEntry
      rw [hk1, hk2, hk3, hk4]
      rfl
    have hmset : mapSet st.metadata k v = st.metadata ++ [(k, v)] := by
      unfold mapSet
      rw [List.filter_eq_self.mpr]
      intro p hp
      simp only [bne_iff_ne, ne_eq, decide_eq_true_eq]
      intro he
      have hknd := (List.nodup_append.mp hnd).2.2
      exact hknd (List.mem_map.mpr ⟨p, hp, he⟩)
        (by simp)
    simp only [List.map_cons]
    unfold decodeSetLoop
    rw [hent, hmset]
    dsimp only
    rw [decodeSetLoop_metadata rest {st with metadata := st.metadata ++ [(k, v)]}
      (fun kv hkv => hpfx kv (List.mem_cons_of_mem _ hkv))
      (by
        simp only [List.map_append, List.map_cons, List.map_nil]
        have h2 : (st.metadata.map Prod.fst ++ [k]) ++ rest.map Prod.fst
            = st.metadata.map Prod.fst ++ (k :: rest.map Prod.fst) := by
          simp
        rw [h2]
        simpa using hnd)]
    simp [List.append_assoc]

lemma jmap_fold_meta : ∀ (m : List (String × String)) (base : List (String × JSON)),
    (∀ kv ∈ m, ∀ p ∈ base, p.1 ≠ kv.1) →
    (m.map Prod.fst).Nodup →
    m.foldl (fun acc kv => jmapSet acc kv.1 (.str kv.2)) base
      = base ++ m.map (fun kv => (kv.1, JSON.str kv.2))
  | [], base, _, _ => by simp
  | (k, v) :: rest, base, hdisj, hnd => by
    simp only [List.foldl_cons, List.map_cons]
    have hj : jmapSet base k (.str v) = base ++ [(k, JSON.str v)] := by
      unfold jmapSet
      rw [List.filter_eq_self.mpr]
      intro p hp
      simp only [bne_iff_ne, ne_eq]
      exact hdisj (k, v) (List.mem_cons_self _ _) p hp
    rw [hj]
    have h' : (∀ x : String, (k, x) ∉ rest) ∧ (rest.map Prod.fst).Nodup := by
      simpa using hnd
    have hd2 : ∀ kv ∈ rest, ∀ p ∈ base ++ [(k, JSON.str v)], p.1 ≠ kv.1 := by
      intro kv hkv p hp
      rcases List.mem_append.mp hp with hp1 | hp2
      · exact hdisj kv (List.mem_cons_of_mem _ hkv) p hp1
      · have hpk : p = (k, JSON.str v) := by simpa using hp2
        rw [hpk]
        intro he
        have he' : k = kv.1 := he
        exact h'.1 kv.2 (by rw [he']; simpa using hkv)
    rw [jmap_fold_meta rest (base ++ [(k, JSON.str v)]) hd2 h'.2]
    simp [List.append_assoc]

lemma disjoint_of_keys_pfx (m : List (String × String)) (base : List (String × JSON))
    (hbase : ∀ k ∈ base.map Prod.fst, strHasPfx k "_" = true)
    (hm : ∀ kv ∈ m, strHasPfx kv.1 "_" = false) :
    ∀ kv ∈ m, ∀ q ∈ base, q.1 ≠ kv.1 :=
  fun kv hkv q hq => ne_of_pfx q.1 kv.1 (hbase q.1 (List.mem_map_of_mem Prod.fst hq)) (hm kv hkv)

lemma encodeSet_shape (S : ObservationSet) (src : List String) (cl : List Condition)
    (hsrc : S.sources = some src) (hcl : S.conditions = some cl) (hclne : cl ≠ [])
    (hmeta : ∀ kv ∈ S.metadata, strHasPfx kv.1 "_" = false)
    (hmnd : (S.metadata.map Prod.fst).Nodup) :
    ∃ flags : List (String × JSON),
      (∀ kv ∈ flags, kv.1 = "__link" ∨ kv.1 = "__data" ∨ kv.1 = "__obs_count") ∧
      (∀ k ∈ (([("_sources", JSON.arr (src.map JSON.str)), ("_analyzer", JSON.str S.analyzer)]
          ++ flags ++ [("_conditions", JSON.arr ((cl.map Condition.name).map JSON.str))])).map Prod.fst,
        strHasPfx k "_" = true) ∧
      ((([("_sources", JSON.arr (src.map JSON.str)), ("_analyzer", JSON.str S.analyzer)]
          ++ flags ++ [("_conditions", JSON.arr ((cl.map Condition.name).map JSON.str))])).map Prod.fst).Nodup ∧
      encodeSet S = .obj ((([("_sources", JSON.arr (src.map JSON.str)), ("_analyzer", JSON.str S.analyzer)]
          ++ flags ++ [("_conditions", JSON.arr ((cl.map Condition.name).map JSON.str))]))
          ++ S.metadata.map (fun kv => (kv.1, JSON.str kv.2))) := by
  have hlen : ((cl.map Condition.name).length > 0) := by
    simp only [List.length_map]
    exact List.length_pos.mpr hclne
  by_cases hL : (S.link != "") = true
  · by_cases hD : (S.datalink != "") = true
    · by_cases hC : (S.count != 0) = true
      · -- link, data, count all present
        refine ⟨[("__link", JSON.str S.link), ("__data", JSON.str S.datalink), ("__obs_count", JSON.num S.count)], ?_, ?_, ?_, ?_⟩
        · intro kv hkv
          rcases List.mem_cons.mp hkv with rfl | hkv
          · exact Or.inl rfl
          rcases List.mem_cons.mp hkv with rfl | hkv
          · exact Or.inr (Or.inl rfl)
          rcases List.mem_cons.mp hkv with rfl | hkv
          · exact Or.inr (Or.inr rfl)
          exact absurd hkv (List.not_mem_nil _)
        · have he : (([("_sources", JSON.arr (src.map JSON.str)), ("_analyzer", JSON.str S.analyzer)] ++ [("__link", JSON.str S.link), ("__data", JSON.str S.datalink), ("__obs_count", JSON.num S.count)] ++ [("_conditions", JSON.arr ((cl.map Condition.name).map JSON.str))])).map Prod.fst = ["_sources", "_analyzer", "__link", "__data", "__obs_count", "_conditions"] := rfl
          rw [he]
          decide
        · have he : (([("_sources", JSON.arr (src.map JSON.str)), ("_analyzer", JSON.str S.analyzer)] ++ [("__link", JSON.str S.link), ("__data", JSON.str S.datalink), ("__obs_count", JSON.num S.count)] ++ [("_conditions", JSON.arr ((cl.map Condition.name).map JSON.str))])).map Prod.fst = ["_sources", "_analyzer", "__link", "__data", "__obs_count", "_conditions"] := rfl
          rw [he]
          decide
        · unfold encodeSet ObservationSet.MarshalJSON
          rw [hsrc, hcl]
          simp only [Option.getD_some]
          rw [if_pos hL, if_pos hD, if_pos hC, if_pos hlen]
          exact congrArg JSON.obj (jmap_fold_meta S.metadata
            ([("_sources", JSON.arr (src.map JSON.str)), ("_analyzer", JSON.str S.analyzer)] ++ [("__link", JSON.str S.link), ("__data", JSON.str S.datalink), ("__obs_count", JSON.num S.count)] ++ [("_conditions", JSON.arr ((cl.map Condition.name).map JSON.str))])
            (disjoint_of_keys_pfx S.metadata _ (by
              have he : (([("_sources", JSON.arr (src.map JSON.str)), ("_analyzer", JSON.str S.analyzer)] ++ [("__link", JSON.str S.link), ("__data", JSON.str S.datalink), ("__obs_count", JSON.num S.count)] ++ [("_conditions", JSON.arr ((cl.map Condition.name).map JSON.str))])).map Prod.fst = ["_sources", "_analyzer", "__link", "__data", "__obs_count", "_conditions"] := rfl
              rw [he]
              decide) hmeta) hmnd)
      · -- link, data present
        refine ⟨[("__link", JSON.str S.link), ("__data", JSON.str S.datalink)], ?_, ?_, ?_, ?_⟩
        · intro kv hkv
          rcases List.mem_cons.mp hkv with rfl | hkv
          · exact Or.inl rfl
          rcases List.mem_cons.mp hkv with rfl | hkv
          · exact Or.inr (Or.inl rfl)
          exact absurd hkv (List.not_mem_nil _)
        · have he : (([("_sources", JSON.arr (src.map JSON.str)), ("_analyzer", JSON.str S.analyzer)] ++ [("__link", JSON.str S.link), ("__data", JSON.str S.datalink)] ++ [("_conditions", JSON.arr ((cl.map Condition.name).map JSON.str))])).map Prod.fst = ["_sources", "_analyzer", "__link", "__data", "_conditions"] := rfl
          rw [he]
          decide
        · have he : (([("_sources", JSON.arr (src.map JSON.str)), ("_analyzer", JSON.str S.analyzer)] ++ [("__link", JSON.str S.link), ("__data", JSON.str S.datalink)] ++ [("_conditions", JSON.arr ((cl.map Condition.name).map JSON.str))])).map Prod.fst = ["_sources", "_analyzer", "__link", "__data", "_conditions"] := rfl
          rw [he]
          decide
        · unfold encodeSet ObservationSet.MarshalJSON
          rw [hsrc, hcl]
          simp only [Option.getD_some]
          rw [if_pos hL, if_pos hD, if_neg hC, if_pos hlen]
          exact congrArg JSON.obj (jmap_fold_meta S.metadata
            ([("_sources", JSON.arr (src.map JSON.str)), ("_analyzer", JSON.str S.analyzer)] ++ [("__link", JSON.str S.link), ("__data", JSON.str S.datalink)] ++ [("_conditions", JSON.arr ((cl.map Condition.name).map JSON.str))])
            (disjoint_of_keys_pfx S.metadata _ (by
              have he : (([("_sources", JSON.arr (src.map JSON.str)), ("_analyzer", JSON.str S.analyzer)] ++ [("__link", JSON.str S.link), ("__data", JSON.str S.datalink)] ++ [("_conditions", JSON.arr ((cl.map Condition.name).map JSON.str))])).map Prod.fst = ["_sources", "_analyzer", "__link", "__data", "_conditions"] := rfl
              rw [he]
              decide) hmeta) hmnd)
    · by_cases hC : (S.count != 0) = true
      · -- link, count present
        refine ⟨[("__link", JSON.str S.link), ("__obs_count", JSON.num S.count)], ?_, ?_, ?_, ?_⟩
        · intro kv hkv
          rcases List.mem_cons.mp hkv with rfl | hkv
          · exact Or.inl rfl
          rcases List.mem_cons.mp hkv with rfl | hkv
          · exact Or.inr (Or.inr rfl)
          exact absurd hkv (List.not_mem_nil _)
        · have he : (([("_sources", JSON.arr (src.map JSON.str)), ("_analyzer", JSON.str S.analyzer)] ++ [("__link", JSON.str S.link), ("__obs_count", JSON.num S.count)] ++ [("_conditions", JSON.arr ((cl.map Condition.name).map JSON.str))])).map Prod.fst = ["_sources", "_analyzer", "__link", "__obs_count", "_conditions"] := rfl
          rw [he]
          decide
        · have he : (([("_sources", JSON.arr (src.map JSON.str)), ("_analyzer", JSON.str S.analyzer)] ++ [("__link", JSON.str S.link), ("__obs_count", JSON.num S.count)] ++ [("_conditions", JSON.arr ((cl.map Condition.name).map JSON.str))])).map Prod.fst = ["_sources", "_analyzer", "__link", "__obs_count", "_conditions"] := rfl
          rw [he]
          decide
        · unfold encodeSet ObservationSet.MarshalJSON
          rw [hsrc, hcl]
          simp only [Option.getD_some]
          rw [if_pos hL, if_neg hD, if_pos hC, if_pos hlen]
          exact congrArg JSON.obj (jmap_fold_meta S.metadata
            ([("_sources", JSON.arr (src.map JSON.str)), ("_analyzer", JSON.str S.analyzer)] ++ [("__link", JSON.str S.link), ("__obs_count", JSON.num S.count)] ++ [("_conditions", JSON.arr ((cl.map Condition.name).map JSON.str))])
            (disjoint_of_keys_pfx S.metadata _ (by
              have he : (([("_sources", JSON.arr (src.map JSON.str)), ("_analyzer", JSON.str S.analyzer)] ++ [("__link", JSON.str S.link), ("__obs_count", JSON.num S.count)] ++ [("_conditions", JSON.arr ((cl.map Condition.name).map JSON.str))])).map Prod.fst = ["_sources", "_analyzer", "__link", "__obs_count", "_conditions"] := rfl
              rw [he]
              decide) hmeta) hmnd)
      · -- link present
        refine ⟨[("__link", JSON.str S.link)], ?_, ?_, ?_, ?_⟩
        · intro kv hkv
          rcases List.mem_cons.mp hkv with rfl | hkv
          · exact Or.inl rfl
          exact absurd hkv (List.not_mem_nil _)
        · have he : (([("_sources", JSON.arr (src.map JSON.str)), ("_analyzer", JSON.str S.analyzer)] ++ [("__link", JSON.str S.link)] ++ [("_conditions", JSON.arr ((cl.map Condition.name).map JSON.str))])).map Prod.fst = ["_sources", "_analyzer", "__link", "_conditions"] := rfl
          rw [he]
          decide
        · have he : (([("_sources", JSON.arr (src.map JSON.str)), ("_analyzer", JSON.str S.analyzer)] ++ [("__link", JSON.str S.link)] ++ [("_conditions", JSON.arr ((cl.map Condition.name).map JSON.str))])).map Prod.fst = ["_sources", "_analyzer", "__link", "_conditions"] := rfl
          rw [he]
          decide
        · unfold encodeSet ObservationSet.MarshalJSON
          rw [hsrc, hcl]
          simp only [Option.getD_some]
          rw [if_pos hL, if_neg hD, if_neg hC, if_pos hlen]
          exact congrArg JSON.obj (jmap_fold_meta S.metadata
            ([("_sources", JSON.arr (src.map JSON.str)), ("_analyzer", JSON.str S.analyzer)] ++ [("__link", JSON.str S.link)] ++ [("_conditions", JSON.arr ((cl.map Condition.name).map JSON.str))])
            (disjoint_of_keys_pfx S.metadata _ (by
              have he : (([("_sources", JSON.arr (src.map JSON.str)), ("_analyzer", JSON.str S.analyzer)] ++ [("__link", JSON.str S.link)] ++ [("_conditions", JSON.arr ((cl.map Condition.name).map JSON.str))])).map Prod.fst = ["_sources", "_analyzer", "__link", "_conditions"] := rfl
              rw [he]
              decide) hmeta) hmnd)
  · by_cases hD : (S.datalink != "") = true
    · by_cases hC : (S.count != 0) = true
      · -- data, count present
        refine ⟨[("__data", JSON.str S.datalink), ("__obs_count", JSON.num S.count)], ?_, ?_, ?_, ?_⟩
        · intro kv hkv
          rcases List.mem_cons.mp hkv with rfl | hkv
          · exact Or.inr (Or.inl rfl)
          rcases List.mem_cons.mp hkv with rfl | hkv
          · exact Or.inr (Or.inr rfl)
          exact absurd hkv (List.not_mem_nil _)
        · have he : (([("_sources", JSON.arr (src.map JSON.str)), ("_analyzer", JSON.str S.analyzer)] ++ [("__data", JSON.str S.datalink), ("__obs_count", JSON.num S.count)] ++ [("_conditions", JSON.arr ((cl.map Condition.name).map JSON.str))])).map Prod.fst = ["_sources", "_analyzer", "__data", "__obs_count", "_conditions"] := rfl
          rw [he]
          decide
        · have he : (([("_sources", JSON.arr (src.map JSON.str)), ("_analyzer", JSON.str S.analyzer)] ++ [("__data", JSON.str S.datalink), ("__obs_count", JSON.num S.count)] ++ [("_conditions", JSON.arr ((cl.map Condition.name).map JSON.str))])).map Prod.fst = ["_sources", "_analyzer", "__data", "__obs_count", "_conditions"] := rfl
          rw [he]
          decide
        · unfold encodeSet ObservationSet.MarshalJSON
          rw [hsrc, hcl]
          simp only [Option.getD_some]
          rw [if_neg hL, if_pos hD, if_pos hC, if_pos hlen]
          exact congrArg JSON.obj (jmap_fold_meta S.metadata
            ([("_sources", JSON.arr (src.map JSON.str)), ("_analyzer", JSON.str S.analyzer)] ++ [("__data", JSON.str S.datalink), ("__obs_count", JSON.num S.count)] ++ [("_conditions", JSON.arr ((cl.map Condition.name).map JSON.str))])
            (disjoint_of_keys_pfx S.metadata _ (by
              have he : (([("_sources", JSON.arr (src.map JSON.str)), ("_analyzer", JSON.str S.analyzer)] ++ [("__data", JSON.str S.datalink), ("__obs_count", JSON.num S.count)] ++ [("_conditions", JSON.arr ((cl.map Condition.name).map JSON.str))])).map Prod.fst = ["_sources", "_analyzer", "__data", "__obs_count", "_conditions"] := rfl
              rw [he]
              decide) hmeta) hmnd)
      · -- data present
        refine ⟨[("__data", JSON.str S.datalink)], ?_, ?_, ?_, ?_⟩
        · intro kv hkv
          rcases List.mem_cons.mp hkv with rfl | hkv
          · exact Or.inr (Or.inl rfl)
          exact absurd hkv (List.not_mem_nil _)
        · have he : (([("_sources", JSON.arr (src.map JSON.str)), ("_analyzer", JSON.str S.analyzer)] ++ [("__data", JSON.str S.datalink)] ++ [("_conditions", JSON.arr ((cl.map Condition.name).map JSON.str))])).map Prod.fst = ["_sources", "_analyzer", "__data", "_conditions"] := rfl
          rw [he]
          decide
        · have he : (([("_sources", JSON.arr (src.map JSON.str)), ("_analyzer", JSON.str S.analyzer)] ++ [("__data", JSON.str S.datalink)] ++ [("_conditions", JSON.arr ((cl.map Condition.name).map JSON.str))])).map Prod.fst = ["_sources", "_analyzer", "__data", "_conditions"] := rfl
          rw [he]
          decide
        · unfold encodeSet ObservationSet.MarshalJSON
          rw [hsrc, hcl]
          simp only [Option.getD_some]
          rw [if_neg hL, if_pos hD, if_neg hC, if_pos hlen]
          exact congrArg JSON.obj (jmap_fold_meta S.metadata
            ([("_sources", JSON.arr (src.map JSON.str)), ("_analyzer", JSON.str S.analyzer)] ++ [("__data", JSON.str S.datalink)] ++ [("_conditions", JSON.arr ((cl.map Condition.name).map JSON.str))])
            (disjoint_of_keys_pfx S.metadata _ (by
              have he : (([("_sources", JSON.arr (src.map JSON.str)), ("_analyzer", JSON.str S.analyzer)] ++ [("__data", JSON.str S.datalink)] ++ [("_conditions", JSON.arr ((cl.map Condition.name).map JSON.str))])).map Prod.fst = ["_sources", "_analyzer", "__data", "_conditions"] := rfl
              rw [he]
              decide) hmeta) hmnd)
    · by_cases hC : (S.count != 0) = true
      · -- count present
        refine ⟨[("__obs_count", JSON.num S.count)], ?_, ?_, ?_, ?_⟩
        · intro kv hkv
          rcases List.mem_cons.mp hkv with rfl | hkv
          · exact Or.inr (Or.inr rfl)
          exact absurd hkv (List.not_mem_nil _)
        · have he : (([("_sources", JSON.arr (src.map JSON.str)), ("_analyzer", JSON.str S.analyzer)] ++ [("__obs_count", JSON.num S.count)] ++ [("_conditions", JSON.arr ((cl.map Condition.name).map JSON.str))])).map Prod.fst = ["_sources", "_analyzer", "__obs_count", "_conditions"] := rfl
          rw [he]
          decide
        · have he : (([("_sources", JSON.arr (src.map JSON.str)), ("_analyzer", JSON.str S.analyzer)] ++ [("__obs_count", JSON.num S.count)] ++ [("_conditions", JSON.arr ((cl.map Condition.name).map JSON.str))])).map Prod.fst = ["_sources", "_analyzer", "__obs_count", "_conditions"] := rfl
          rw [he]
          decide
        · unfold encodeSet ObservationSet.MarshalJSON
          rw [hsrc, hcl]
          simp only [Option.getD_some]
          rw [if_neg hL, if_neg hD, if_pos hC, if_pos hlen]
          exact congrArg JSON.obj (jmap_fold_meta S.metadata
            ([("_sources", JSON.arr (src.map JSON.str)), ("_analyzer", JSON.str S.analyzer)] ++ [("__obs_count", JSON.num S.count)] ++ [("_conditions", JSON.arr ((cl.map Condition.name).map JSON.str))])
            (disjoint_of_keys_pfx S.metadata _ (by
              have he : (([("_sources", JSON.arr (src.map JSON.str)), ("_analyzer", JSON.str S.analyzer)] ++ [("__obs_count", JSON.num S.count)] ++ [("_conditions", JSON.arr ((cl.map Condition.name).map JSON.str))])).map Prod.fst = ["_sources", "_analyzer", "__obs_count", "_conditions"] := rfl
              rw [he]
              decide) hmeta) hmnd)
      · -- no derived fields set
        refine ⟨[], ?_, ?_, ?_, ?_⟩
        · intro kv hkv
          exact absurd hkv (List.not_mem_nil _)
        · have he : (([("_sources", JSON.arr (src.map JSON.str)), ("_analyzer", JSON.str S.analyzer)] ++ [] ++ [("_conditions", JSON.arr ((cl.map Condition.name).map JSON.str))])).map Prod.fst = ["_sources", "_analyzer", "_conditions"] := rfl
          rw [he]
          decide
        · have he : (([("_sources", JSON.arr (src.map JSON.str)), ("_analyzer", JSON.str S.analyzer)] ++ [] ++ [("_conditions", JSON.arr ((cl.map Condition.name).map JSON.str))])).map Prod.fst = ["_sources", "_analyzer", "_conditions"] := rfl
          rw [he]
          decide
        · unfold encodeSet ObservationSet.MarshalJSON
          rw [hsrc, hcl]
          simp only [Option.getD_some]
          rw [if_neg hL, if_neg hD, if_neg hC, if_pos hlen]
          exact congrArg JSON.obj (jmap_fold_meta S.metadata
            ([("_sources", JSON.arr (src.map JSON.str)), ("_analyzer", JSON.str S.analyzer)] ++ [] ++ [("_conditions", JSON.arr ((cl.map Condition.name).map JSON.str))])
            (disjoint_of_keys_pfx S.metadata _ (by
              have he : (([("_sources", JSON.arr (src.map JSON.str)), ("_analyzer", JSON.str S.analyzer)] ++ [] ++ [("_conditions", JSON.arr ((cl.map Condition.name).map JSON.str))])).map Prod.fst = ["_sources", "_analyzer", "_conditions"] := rfl
              rw [he]
              decide) hmeta) hmnd)

/-- Unfolding of `decodeSet` on a JSON object (definitional). -/
lemma decodeSet_obj (kvs : List (String × JSON)) :
    decodeSet (.obj kvs)
      = (match decodeSetLoop (dedupKeys kvs) {emptySet with metadata := [], id := 0} with
         | .error e => .error e
         | .ok s =>
           if s.sources.isNone then .error (.genericErr "ObservationSet missing _sources")
           else if s.analyzer == "" then .error (.genericErr "ObservationSet missing _analyzer")
           else if s.conditions.isNone then .error (.genericErr "ObservationSet missing _conditions")
           else .ok s) := rfl

lemma decodeSetLoop_cons_ok {st s1 : ObservationSet} {k : String} {v : JSON}
    {rest : List (String × JSON)} (h : decodeSetEntry st k v = .ok s1) :
    decodeSetLoop ((k, v) :: rest) st = decodeSetLoop rest s1 := by
  show (match decodeSetEntry st k v with
        | .ok s => decodeSetLoop rest s
        | .error e => .error e) = decodeSetLoop rest s1
  rw [h]

lemma decodeSetEntry_sources (st : ObservationSet) (l : List String) :
    decodeSetEntry st "_sources" (.arr (l.map JSON.str))
      = .ok {st with sources := some l} := by
  show (match AsStringArray (.arr (l.map JSON.str)) with
        | some a => Except.ok {st with sources := some a}
        | none => Except.error (PTOError.genericErr "_sources not a string array"))
      = .ok {st with sources := some l}
  rw [AsStringArray_strs]

lemma decodeSetEntry_analyzer (st : ObservationSet) (a : String) :
    decodeSetEntry st "_analyzer" (.str a) = .ok {st with analyzer := a} := rfl

lemma decodeSetEntry_conditions (st : ObservationSet) (l : List String) :
    decodeSetEntry st "_conditions" (.arr (l.map JSON.str))
      = .ok {st with conditions := some (l.map (fun n => Condition.mk 0 n))} := by
  show (match AsStringArray (.arr (l.map JSON.str)) with
        | some names =>
          Except.ok {st with conditions := some (names.map (fun n => Condition.mk 0 n))}
        | none => Except.error (PTOError.genericErr "_conditions not a string array"))
      = .ok {st with conditions := some (l.map (fun n => Condition.mk 0 n))}
  rw [AsStringArray_strs]

/-- A valid observation set under the wire contract: non-nil, non-empty
sources and conditions, a non-empty analyzer, and free-form metadata
(keys without the reserved `_` prefix, duplicate-free as a Go map). -/
def SetValid (S : ObservationSet) : Prop :=
  (∃ src, S.sources = some src ∧ src ≠ []) ∧
  S.analyzer ≠ "" ∧
  (∃ cl, S.conditions = some cl ∧ cl ≠ []) ∧
  (∀ kv ∈ S.metadata, strHasPfx kv.1 "_" = false) ∧
  (S.metadata.map Prod.fst).Nodup

/-- C5: the set codec round-trips. For every valid observation set,
decoding its encoding succeeds and recovers the same sources (in order),
the same analyzer, the same declared condition names (in order, with ids
reset to unassigned), and the same metadata key/value pairs; only the
derived `__`-prefixed keys are dropped on the way back in. -/
theorem c5_set_roundtrip (S : ObservationSet) (h : SetValid S) :
    ∃ S', decodeSet (encodeSet S) = .ok S' ∧
      S'.sources = S.sources ∧
      S'.analyzer = S.analyzer ∧
      (S'.conditions.getD []).map Condition.name
        = (S.conditions.getD []).map Condition.name ∧
      S'.metadata = S.metadata := by
  obtain ⟨⟨src, hsrc, hsrcne⟩, hana, ⟨cl, hcl, hclne⟩, hmeta, hmnd⟩ := h
  obtain ⟨flags, hfmem, hkeys, hknd, henc⟩ :=
    encodeSet_shape S src cl hsrc hcl hclne hmeta hmnd
  have hMk : (S.metadata.map (fun kv => (kv.1, JSON.str kv.2))).map Prod.fst
      = S.metadata.map Prod.fst := by
    rw [List.map_map]
    exact List.map_congr_left (fun kv _ => rfl)
  have hknd2 : ((([("_sources", JSON.arr (src.map JSON.str)), ("_analyzer", JSON.str S.analyzer)]
      ++ flags ++ [("_conditions", JSON.arr ((cl.map Condition.name).map JSON.str))])
      ++ S.metadata.map (fun kv => (kv.1, JSON.str kv.2))).map Prod.fst).Nodup := by
    rw [List.map_append, hMk]
    apply List.Nodup.append hknd hmnd
    intro k hk1 hk2
    rcases List.mem_map.mp hk2 with ⟨kv, hkv, rfl⟩
    have hpt := hkeys _ hk1
    have hpf := hmeta kv hkv
    rw [hpf] at hpt
    cases hpt
  have hdedup := dedupKeys_eq_self _ hknd2
  have hnd3 : ((([] : List (String × String)).map Prod.fst)
      ++ S.metadata.map Prod.fst).Nodup := by
    simpa using hmnd
  have hloopFull : decodeSetLoop
      (([("_sources", JSON.arr (src.map JSON.str)), ("_analyzer", JSON.str S.analyzer)]
        ++ flags ++ [("_conditions", JSON.arr ((cl.map Condition.name).map JSON.str))])
        ++ S.metadata.map (fun kv => (kv.1, JSON.str kv.2)))
      {emptySet with metadata := [], id := 0}
      = .ok { id := 0, sources := some src, analyzer := S.analyzer,
              conditions := some ((cl.map Condition.name).map (fun n => Condition.mk 0 n)),
              conditionDeclared := none, metadata := S.metadata,
              datalink := "", link := "", count := 0 } := by
    have h1 : (([("_sources", JSON.arr (src.map JSON.str)), ("_analyzer", JSON.str S.analyzer)]
        ++ flags ++ [("_conditions", JSON.arr ((cl.map Condition.name).map JSON.str))])
        ++ S.metadata.map (fun kv => (kv.1, JSON.str kv.2)))
        = ("_sources", JSON.arr (src.map JSON.str)) :: ("_analyzer", JSON.str S.analyzer) ::
          (flags ++ (("_conditions", JSON.arr ((cl.map Condition.name).map JSON.str)) ::
            S.metadata.map (fun kv => (kv.1, JSON.str kv.2)))) := by
      simp
    rw [h1]
    rw [decodeSetLoop_cons_ok (decodeSetEntry_sources {emptySet with metadata := [], id := 0} src)]
    rw [decodeSetLoop_cons_ok (decodeSetEntry_analyzer _ S.analyzer)]
    rw [decodeSetLoop_append, decodeSetLoop_flags flags _ hfmem]
    dsimp only
    rw [decodeSetLoop_cons_ok (decodeSetEntry_conditions _ (cl.map Condition.name))]
    rw [decodeSetLoop_metadata S.metadata _ hmeta (by simpa using hmnd)]
    rfl
  refine ⟨{ id := 0, sources := some src, analyzer := S.analyzer,
            conditions := some ((cl.map Condition.name).map (fun n => Condition.mk 0 n)),
            conditionDeclared := none, metadata := S.metadata,
            datalink := "", link := "", count := 0 }, ?_, ?_, rfl, ?_, rfl⟩
  · rw [henc, decodeSet_obj, hdedup, hloopFull]
    dsimp only
    rw [if_neg (by simp), if_neg (by simp [hana]), if_neg (by simp)]
  · exact hsrc.symm
  · show (((cl.map Condition.name).map (fun n => Condition.mk 0 n)).map Condition.name)
      = (S.conditions.getD []).map Condition.name
    rw [hcl, List.map_map]
    have hid : (cl.map Condition.name).map (Condition.name ∘ fun n => Condition.mk 0 n)
        = (cl.map Condition.name).map id :=
      List.map_congr_left (fun n _ => rfl)
    rw [hid, List.map_id]
    rfl

/-- Closed witness for C5 at a concrete valid set carrying metadata, a
link and a non-zero cached count (so the `__link`/`__obs_count` keys are
exercised and dropped). -/
theorem c5_set_roundtrip_witness :
    ∃ S', decodeSet (encodeSet (ObservationSet.mk 5 (some ["agentA"]) "pto-basic"
        (some [Condition.mk 7 "icmp.unreachable"]) none [("season", "winter")]
        "" "http://x/obs/5" 3)) = .ok S' ∧
      S'.sources = some ["agentA"] ∧
      S'.analyzer = "pto-basic" ∧
      (S'.conditions.getD []).map Condition.name = ["icmp.unreachable"] ∧
      S'.metadata = [("season", "winter")] := by
  have h := c5_set_roundtrip (ObservationSet.mk 5 (some ["agentA"]) "pto-basic"
      (some [Condition.mk 7 "icmp.unreachable"]) none [("season", "winter")]
      "" "http://x/obs/5" 3)
    ⟨⟨["agentA"], rfl, by decide⟩, by decide,
     ⟨[Condition.mk 7 "icmp.unreachable"], rfl, by decide⟩, by decide, by decide⟩
  obtain ⟨S', h1, h2, h3, h4, h5⟩ := h
  exact ⟨S', h1, h2, h3, by simpa using h4, h5⟩

end PTO3
